import Mathlib

/-!
Verification of the seat-allocation core of `src/app.py` (route `allocate_seats`,
together with the utility constants at lines 35-38).

The embedding is shallow: the SQLite seat table becomes a `List Seat` (list order
models the implementation-defined row order used both by the unordered
`Seat.query.filter_by(...)` fetches and by `count()`), the `Office` table becomes a
`List Office`, form input becomes three parallel `List String`, and the Python
dicts `allocation_report` / its inner per-office dicts become association lists
with Python assignment semantics (`dictUpd`: overwrite in place, else append).
Twilio SMS dispatch, matplotlib chart output and HTML rendering are external
side effects with no bearing on the allocation state or the report and are not
modelled. Python float arithmetic on the small rate constants is modelled over
`ℚ`, on which the multiplications performed by the code are exact.
-/

namespace SeatAlloc

/-- `Office` model row (`src/app.py` lines 41-46): integer primary key and name.
`location`/`capacity` are never read by the allocator and are omitted. -/
structure Office where
  id : Nat
  name : String
deriving DecidableEq

/-- `Seat` model row (`src/app.py` lines 49-56). `status` is the raw string
column (default "available"); `department`/`phone`/`occupant` are nullable.
`occupant` is never touched by the allocator and is omitted. -/
structure Seat where
  id : Nat
  officeId : Nat
  seatNumber : String
  status : String
  department : Option String
  phone : Option String
deriving DecidableEq

/-- One submitted form row: the triple of raw strings at one index of the three
parallel `getlist` results (`src/app.py` lines 92-94, zipped at line 97). -/
structure RawRow where
  department : String
  count : String
  phone : String
deriving DecidableEq

/-- One entry of `dept_data` (`src/app.py` lines 99-103). -/
structure DeptData where
  name : String
  count : Nat
  phone : String
deriving DecidableEq

/-- Python `zip` over the three form lists (`src/app.py` line 97): truncates to
the shortest list. -/
def zip3 : List String → List String → List String → List RawRow
  | d :: ds, c :: cs, p :: ps => ⟨d, c, p⟩ :: zip3 ds cs ps
  | _, _, _ => []

/-- Python `str.isdigit()` for the ASCII inputs modelled here: non-empty and
every character a decimal digit (`src/app.py` line 98). -/
def pyIsDigit (s : String) : Bool :=
  !(s.data.isEmpty) && s.data.all Char.isDigit

/-- Python `str.strip()`: drop leading and trailing whitespace. -/
def pyStrip (s : String) : String :=
  ⟨((s.data.dropWhile Char.isWhitespace).reverse.dropWhile Char.isWhitespace).reverse⟩

/-- The row filter `if dept and count.isdigit() and phone` (`src/app.py` line 98):
Python truthiness of a string is non-emptiness, tested on the *unstripped* values. -/
def validRow (r : RawRow) : Bool :=
  !(r.department == "") && pyIsDigit r.count && !(r.phone == "")

/-- `int(count)` (`src/app.py` line 101): the decimal value of the digit string
(the call site guards with `isdigit`, so the plain positional fold is `int`). -/
def parsedCount (s : String) : Nat :=
  s.data.foldl (fun n c => n * 10 + (c.toNat - 48)) 0

/-- Build one `dept_data` entry (`src/app.py` lines 99-103): the name and phone
are stripped only after validation. -/
def mkDeptData (r : RawRow) : DeptData :=
  ⟨pyStrip r.department, parsedCount r.count, pyStrip r.phone⟩

/-- `dept_data` (`src/app.py` lines 96-103): keep the valid rows, in order. -/
def deptData (rows : List RawRow) : List DeptData :=
  (rows.filter validRow).map mkDeptData

/-- `sum(item['count'] for item in dept_data)` (`src/app.py` lines 108 and 167). -/
def sumCounts (ds : List DeptData) : Nat := (ds.map DeptData.count).sum

/-- Status filter used by `Seat.query.filter_by(status='available')`. -/
def availablePred (s : Seat) : Bool := s.status == "available"

/-- Status filter selecting occupied seats. -/
def occupiedPred (s : Seat) : Bool := s.status == "occupied"

/-- `Seat.query.filter_by(status='available').count()` (`src/app.py` line 109). -/
def countAvail (seats : List Seat) : Nat := (seats.filter availablePred).length

/-- Number of seats whose status is `occupied`. -/
def countOccupied (seats : List Seat) : Nat := (seats.filter occupiedPred).length

/-- Filter of `Seat.query.filter_by(office_id=office.id, status='available')`
(`src/app.py` lines 134-137). -/
def officeAvailPred (oid : Nat) (s : Seat) : Bool :=
  s.officeId == oid && s.status == "available"

/-- Available-seat count of one office. -/
def availInOffice (oid : Nat) (seats : List Seat) : Nat :=
  (seats.filter (officeAvailPred oid)).length

/-- `Seat.query.filter_by(office_id=..., status='available').limit(lim).all()`
(`src/app.py` lines 134-137): the first `lim` matching rows in table order. -/
def fetchAvailable (oid : Nat) (lim : Nat) (seats : List Seat) : List Seat :=
  (seats.filter (officeAvailPred oid)).take lim

/-- The three assignments `seat.status = 'occupied'; seat.department = department;
seat.phone = phone` (`src/app.py` lines 144-146). -/
def markSeat (department phone : String) (s : Seat) : Seat :=
  { s with status := "occupied", department := some department, phone := some phone }

/-- The mutation loop `for seat in available_seats: ...` (`src/app.py` lines
143-147) fused with the fetch that produced `available_seats`: mark the first
`lim` available seats of office `oid` occupied, stamping department and phone. -/
def markAvail (oid : Nat) (department phone : String) : Nat → List Seat → List Seat
  | _, [] => []
  | 0, ss => ss
  | lim + 1, s :: rest =>
    if officeAvailPred oid s then
      markSeat department phone s :: markAvail oid department phone lim rest
    else
      s :: markAvail oid department phone (lim + 1) rest

/-- Python dict assignment `d[k] = v` on an association list: overwrite in place
if the key is present, otherwise append at the end (insertion order). -/
def dictUpd {α : Type} : List (String × α) → String → α → List (String × α)
  | [], k, v => [(k, v)]
  | (k0, v0) :: rest, k, v =>
    if k0 == k then (k, v) :: rest else (k0, v0) :: dictUpd rest k v

/-- Python dict lookup `d[k]` on an association list. -/
def lookupRep {α : Type} : List (String × α) → String → Option α
  | [], _ => none
  | (k0, v0) :: rest, k => if k0 == k then some v0 else lookupRep rest k

/-- Sum of the values of a per-department allocation-report entry. -/
def sumInner (l : List (String × Nat)) : Nat := (l.map Prod.snd).sum

/-- The `for office in offices` loop of one department (`src/app.py` lines
133-154): fetch up to `required - allocated` available seats of the office, skip
the office when none were fetched, otherwise mark them occupied (the per-office
`db.session.commit()` is the threading of the seat state), record the granted
count under the office name in the department's report dict, and `break` once
`allocated >= required`. Returns (report entry, allocated, seat state). -/
def allocOffices (department phone : String) (required : Nat) :
    List Office → Nat → List Seat → List (String × Nat) →
      List (String × Nat) × Nat × List Seat
  | [], allocated, seats, rep => (rep, allocated, seats)
  | o :: os, allocated, seats, rep =>
    let n := (fetchAvailable o.id (required - allocated) seats).length
    if n = 0 then
      allocOffices department phone required os allocated seats rep
    else
      let seats2 := markAvail o.id department phone (required - allocated) seats
      let rep2 := dictUpd rep o.name n
      if required ≤ allocated + n then (rep2, allocated + n, seats2)
      else allocOffices department phone required os (allocated + n) seats2 rep2

/-- The `for dept in dept_data` loop (`src/app.py` lines 120-154): per
department, reset `allocation_report[department]` and run the office loop from
`allocated = 0` (the reset plus the in-place inner-dict mutation is one
`dictUpd` of the finished inner entry). Returns (report, seat state). -/
def allocLoop (offices : List Office) :
    List DeptData → List Seat → List (String × List (String × Nat)) →
      List (String × List (String × Nat)) × List Seat
  | [], seats, rep => (rep, seats)
  | d :: ds, seats, rep =>
    let st := allocOffices d.name d.phone d.count offices 0 seats []
    allocLoop offices ds st.2.2 (dictUpd rep d.name st.1)

/-- `Office.query.order_by(Office.id).all()` (`src/app.py` line 117): a stable
ascending sort of the office table on `id`. -/
def orderById (offices : List Office) : List Office :=
  List.insertionSort (fun a b => a.id ≤ b.id) offices

/-- `WATER_RATE = 2.0` (`src/app.py` line 35). -/
def WATER_RATE : ℚ := 2

/-- `WATER_LITERS_PER_SEAT = 5` (`src/app.py` line 36). -/
def WATER_LITERS_PER_SEAT : ℚ := 5

/-- `POWER_RATE = 5.0` (`src/app.py` line 37). -/
def POWER_RATE : ℚ := 5

/-- `POWER_KWH_PER_SEAT = 2.5` (`src/app.py` line 38). -/
def POWER_KWH_PER_SEAT : ℚ := 5 / 2

/-- The two early-return failures of the POST handler: the 400 response
"No valid allocation data submitted" (`src/app.py` lines 105-106) and the 400
response "Not enough seats available. Required: r, Available: a"
(`src/app.py` lines 111-112). -/
inductive AllocError where
  | noValidData : AllocError
  | insufficient (required available : Nat) : AllocError
deriving DecidableEq

/-- The data rendered on success (`src/app.py` lines 214-229): the allocation
report, `total_allocated` (line 167), and the four utility figures
(lines 174-177). -/
structure AllocSuccess where
  report : List (String × List (String × Nat))
  totalAllocated : Nat
  waterUsage : ℚ
  powerUsage : ℚ
  waterBill : ℚ
  powerBill : ℚ
deriving DecidableEq

/-- Result of one POST to `/allocate`: the response plus the final seat table. -/
structure AllocOutcome where
  result : Except AllocError AllocSuccess
  seats : List Seat

/-- The POST branch of `allocate_seats` (`src/app.py` lines 91-229): validate
and zip the form rows, fail when no valid row remains, fail when fewer seats
are available than requested (before any mutation), otherwise run the
allocation loop over the offices ordered by id and compute
`total_allocated = sum(item['count'] for item in dept_data)` (line 167) and the
utility figures `water_usage / power_usage / water_bill / power_bill`
(lines 174-177). -/
def allocate (offices : List Office) (seats : List Seat)
    (departments counts phones : List String) : AllocOutcome :=
  let ds := deptData (zip3 departments counts phones)
  if ds.isEmpty then ⟨.error .noValidData, seats⟩
  else
    let totalRequested := sumCounts ds
    let totalAvailable := countAvail seats
    if totalAvailable < totalRequested then
      ⟨.error (.insufficient totalRequested totalAvailable), seats⟩
    else
      let res := allocLoop (orderById offices) ds seats []
      ⟨.ok ⟨res.1, totalRequested,
        (totalRequested : ℚ) * WATER_LITERS_PER_SEAT,
        (totalRequested : ℚ) * POWER_KWH_PER_SEAT,
        (totalRequested : ℚ) * WATER_RATE,
        (totalRequested : ℚ) * POWER_RATE⟩, res.2⟩

/-- Report of an outcome (empty on the error paths, which build no report). -/
def reportOf (o : AllocOutcome) : List (String × List (String × Nat)) :=
  match o.result with
  | .ok r => r.report
  | .error _ => []

/-- `total_allocated` of a successful outcome (0 on the error paths). -/
def totalAllocatedOf (o : AllocOutcome) : Nat :=
  match o.result with
  | .ok r => r.totalAllocated
  | .error _ => 0

/-- `water_bill` of a successful outcome (0 on the error paths). -/
def waterBillOf (o : AllocOutcome) : ℚ :=
  match o.result with
  | .ok r => r.waterBill
  | .error _ => 0

/-- `power_bill` of a successful outcome (0 on the error paths). -/
def powerBillOf (o : AllocOutcome) : ℚ :=
  match o.result with
  | .ok r => r.powerBill
  | .error _ => 0

/-- Modelled from the claim's wording (C3): scan the offices in the given
order; stop as soon as `allocated ≥ required`; fetch up to
`required - allocated` available seats from the current office; mark each
fetched seat occupied with the department name and phone; record the granted
count under `report[department][office]`; continue with the next office. -/
def allocOfficesSpec (department phone : String) (required : Nat) :
    List Office → Nat → List Seat → List (String × Nat) →
      List (String × Nat) × Nat × List Seat
  | [], allocated, seats, rep => (rep, allocated, seats)
  | o :: os, allocated, seats, rep =>
    if required ≤ allocated then (rep, allocated, seats)
    else
      let g := (fetchAvailable o.id (required - allocated) seats).length
      if g = 0 then allocOfficesSpec department phone required os allocated seats rep
      else
        allocOfficesSpec department phone required os (allocated + g)
          (markAvail o.id department phone (required - allocated) seats)
          (dictUpd rep o.name g)

/-- Modelled from the claim's wording (C4): a row is malformed when the
department name is empty, the count is non-numeric, the count is ≤ 0, or the
phone is empty. -/
def malformedRowClaim (r : RawRow) : Bool :=
  r.department == "" || !(pyIsDigit r.count) || parsedCount r.count ≤ 0 || r.phone == ""

/-- Modelled from the claim's wording (C4), amended: a row is malformed when
the department name is empty, the count is not a (non-empty) digit string —
which covers negative and non-numeric counts — or the phone is empty; a count
of `"0"` is accepted. -/
def malformedRowAmended (r : RawRow) : Bool :=
  r.department == "" || !(pyIsDigit r.count) || r.phone == ""

/-- Total number of available seats sitting in the offices of `os` (proof-layer
abbreviation used to reason about the office scan). -/
def totalAvailIn (os : List Office) (seats : List Seat) : Nat :=
  (os.map (fun o => availInOffice o.id seats)).sum

/-- Fixture: a single office table. -/
def wOffice1 : List Office := [⟨1, "A"⟩]

/-- Fixture: one available seat in office 1. -/
def wSeat1 : List Seat := [⟨1, 1, "A1", "available", none, none⟩]

/-- Fixture: ten available seats in office 1. -/
def wSeats10 : List Seat :=
  [⟨1, 1, "A1", "available", none, none⟩, ⟨2, 1, "A2", "available", none, none⟩,
   ⟨3, 1, "A3", "available", none, none⟩, ⟨4, 1, "A4", "available", none, none⟩,
   ⟨5, 1, "A5", "available", none, none⟩, ⟨6, 1, "A6", "available", none, none⟩,
   ⟨7, 1, "A7", "available", none, none⟩, ⟨8, 1, "A8", "available", none, none⟩,
   ⟨9, 1, "A9", "available", none, none⟩, ⟨10, 1, "A10", "available", none, none⟩]

/-- Fixture: one occupied and one available seat in office 1. -/
def wSeatOcc : List Seat :=
  [⟨1, 1, "A1", "occupied", some "X", some "9"⟩, ⟨2, 1, "A2", "available", none, none⟩]

/-- Fixture: two distinct offices carrying the same display name. -/
def wOfficesDup : List Office := [⟨1, "A"⟩, ⟨2, "A"⟩]

/-- Fixture: one available seat in each of offices 1 and 2. -/
def wSeatsDup : List Seat :=
  [⟨1, 1, "A1", "available", none, none⟩, ⟨2, 2, "B1", "available", none, none⟩]

/-- Fixture: the success record produced by allocating 1 seat out of `wSeat1`. -/
def wRecord1 : AllocSuccess :=
  ⟨[("Eng", [("A", 1)])], 1, ((1 : Nat) : ℚ) * WATER_LITERS_PER_SEAT,
    ((1 : Nat) : ℚ) * POWER_KWH_PER_SEAT, ((1 : Nat) : ℚ) * WATER_RATE,
    ((1 : Nat) : ℚ) * POWER_RATE⟩

/-- Fixture: the success record produced by allocating 10 seats out of `wSeats10`. -/
def wRecord10 : AllocSuccess :=
  ⟨[("Eng", [("A", 10)])], 10, ((10 : Nat) : ℚ) * WATER_LITERS_PER_SEAT,
    ((10 : Nat) : ℚ) * POWER_KWH_PER_SEAT, ((10 : Nat) : ℚ) * WATER_RATE,
    ((10 : Nat) : ℚ) * POWER_RATE⟩

/-! ### Basic lemmas about the status counters -/

theorem countAvail_cons (s : Seat) (rest : List Seat) :
    countAvail (s :: rest) = (if availablePred s then 1 else 0) + countAvail rest := by
  by_cases h : availablePred s <;> simp [countAvail, List.filter_cons, h] <;> omega

theorem countOccupied_cons (s : Seat) (rest : List Seat) :
    countOccupied (s :: rest) = (if occupiedPred s then 1 else 0) + countOccupied rest := by
  by_cases h : occupiedPred s <;> simp [countOccupied, List.filter_cons, h] <;> omega

theorem availInOffice_cons (oid : Nat) (s : Seat) (rest : List Seat) :
    availInOffice oid (s :: rest)
      = (if officeAvailPred oid s then 1 else 0) + availInOffice oid rest := by
  by_cases h : officeAvailPred oid s <;> simp [availInOffice, List.filter_cons, h] <;> omega

theorem availablePred_of_officeAvailPred {oid : Nat} {s : Seat}
    (h : officeAvailPred oid s = true) : availablePred s = true := by
  simp only [officeAvailPred, Bool.and_eq_true] at h
  exact h.2

theorem availInOffice_le_countAvail (oid : Nat) (seats : List Seat) :
    availInOffice oid seats ≤ countAvail seats := by
  induction seats with
  | nil => simp [availInOffice, countAvail]
  | cons s rest ih =>
    rw [availInOffice_cons, countAvail_cons]
    by_cases h : officeAvailPred oid s
    · rw [if_pos h, if_pos (availablePred_of_officeAvailPred h)]
      omega
    · rw [if_neg h]
      omega

theorem length_fetchAvailable (oid lim : Nat) (seats : List Seat) :
    (fetchAvailable oid lim seats).length = min lim (availInOffice oid seats) := by
  simp [fetchAvailable, availInOffice, List.length_take]

theorem mem_fetchAvailable_status {oid lim : Nat} {seats : List Seat} {t : Seat}
    (h : t ∈ fetchAvailable oid lim seats) : t.status = "available" := by
  have h2 : t ∈ seats.filter (officeAvailPred oid) := List.mem_of_mem_take h
  have h3 := List.of_mem_filter h2
  have h4 := availablePred_of_officeAvailPred h3
  simpa [availablePred] using h4

/-! ### Lemmas about `markAvail` -/

theorem availablePred_markSeat (d p : String) (s : Seat) :
    availablePred (markSeat d p s) = false := rfl

theorem occupiedPred_markSeat (d p : String) (s : Seat) :
    occupiedPred (markSeat d p s) = true := rfl

theorem officeId_markSeat (d p : String) (s : Seat) :
    (markSeat d p s).officeId = s.officeId := rfl

theorem officeAvailPred_markSeat (oid : Nat) (d p : String) (s : Seat) :
    officeAvailPred oid (markSeat d p s) = false := by
  simp [officeAvailPred, markSeat]

theorem markAvail_zero (oid : Nat) (d p : String) (ss : List Seat) :
    markAvail oid d p 0 ss = ss := by
  cases ss <;> rfl

theorem markAvail_cons_succ_pos {oid : Nat} {s : Seat} (d p : String) (lim : Nat)
    (rest : List Seat) (h : officeAvailPred oid s = true) :
    markAvail oid d p (lim + 1) (s :: rest)
      = markSeat d p s :: markAvail oid d p lim rest := by
  simp [markAvail, h]

theorem markAvail_cons_succ_neg {oid : Nat} {s : Seat} (d p : String) (lim : Nat)
    (rest : List Seat) (h : officeAvailPred oid s = false) :
    markAvail oid d p (lim + 1) (s :: rest) = s :: markAvail oid d p (lim + 1) rest := by
  simp [markAvail, h]

theorem markAvail_officeIds (oid : Nat) (d p : String) :
    ∀ (lim : Nat) (ss : List Seat),
      (markAvail oid d p lim ss).map Seat.officeId = ss.map Seat.officeId := by
  intro lim ss
  induction ss generalizing lim with
  | nil => simp [markAvail]
  | cons s rest ih =>
    cases lim with
    | zero => rw [markAvail_zero]
    | succ lim =>
      by_cases h : officeAvailPred oid s
      · rw [markAvail_cons_succ_pos d p lim rest h]
        simp [ih, markSeat]
      · rw [markAvail_cons_succ_neg d p lim rest (by simpa using h)]
        simp [ih]

theorem countAvail_markAvail (oid : Nat) (d p : String) :
    ∀ (lim : Nat) (ss : List Seat),
      countAvail (markAvail oid d p lim ss) + min lim (availInOffice oid ss)
        = countAvail ss := by
  intro lim ss
  induction ss generalizing lim with
  | nil => simp [markAvail, availInOffice, countAvail]
  | cons s rest ih =>
    cases lim with
    | zero => simp [markAvail_zero]
    | succ lim =>
      by_cases h : officeAvailPred oid s
      · rw [markAvail_cons_succ_pos d p lim rest h, countAvail_cons, countAvail_cons,
          availInOffice_cons, if_pos h, if_pos (availablePred_of_officeAvailPred h),
          if_neg (by simp [availablePred_markSeat])]
        have := ih lim
        omega
      · rw [markAvail_cons_succ_neg d p lim rest (by simpa using h), countAvail_cons,
          countAvail_cons, availInOffice_cons, if_neg h]
        have := ih (lim + 1)
        omega

theorem countOccupied_markAvail (oid : Nat) (d p : String) :
    ∀ (lim : Nat) (ss : List Seat),
      countOccupied (markAvail oid d p lim ss)
        = countOccupied ss + min lim (availInOffice oid ss) := by
  intro lim ss
  induction ss generalizing lim with
  | nil => simp [markAvail, availInOffice, countOccupied]
  | cons s rest ih =>
    cases lim with
    | zero => simp [markAvail_zero]
    | succ lim =>
      by_cases h : officeAvailPred oid s
      · rw [markAvail_cons_succ_pos d p lim rest h, countOccupied_cons, countOccupied_cons,
          availInOffice_cons, if_pos h]
        have hs : occupiedPred s = false := by
          have h2 := availablePred_of_officeAvailPred h
          simp only [availablePred, beq_iff_eq] at h2
          simp [occupiedPred, h2]
        rw [if_pos (occupiedPred_markSeat d p s), if_neg (by simp [hs])]
        have := ih lim
        omega
      · rw [markAvail_cons_succ_neg d p lim rest (by simpa using h), countOccupied_cons,
          countOccupied_cons, availInOffice_cons, if_neg h]
        have := ih (lim + 1)
        omega

theorem availInOffice_markAvail_ne (oid oid2 : Nat) (d p : String) (hne : oid2 ≠ oid) :
    ∀ (lim : Nat) (ss : List Seat),
      availInOffice oid2 (markAvail oid d p lim ss) = availInOffice oid2 ss := by
  intro lim ss
  induction ss generalizing lim with
  | nil => simp [markAvail]
  | cons s rest ih =>
    cases lim with
    | zero => rw [markAvail_zero]
    | succ lim =>
      by_cases h : officeAvailPred oid s
      · rw [markAvail_cons_succ_pos d p lim rest h, availInOffice_cons, availInOffice_cons]
        have hoid : s.officeId = oid := by
          simp only [officeAvailPred, Bool.and_eq_true, beq_iff_eq] at h
          exact h.1
        have h1 : officeAvailPred oid2 s = false := by
          simp [officeAvailPred, hoid, hne.symm]
        have h2 : officeAvailPred oid2 (markSeat d p s) = false := by
          simp [officeAvailPred, markSeat, hoid, hne.symm]
        rw [if_neg (by simp [h2]), if_neg (by simp [h1]), ih lim]
      · rw [markAvail_cons_succ_neg d p lim rest (by simpa using h), availInOffice_cons,
          availInOffice_cons, ih (lim + 1)]

theorem mem_markAvail_of_not_avail {oid : Nat} {d p : String} {s : Seat} :
    ∀ {lim : Nat} {ss : List Seat}, s ∈ ss → s.status ≠ "available" →
      s ∈ markAvail oid d p lim ss := by
  intro lim ss hmem hstat
  induction ss generalizing lim with
  | nil => simp at hmem
  | cons t rest ih =>
    cases lim with
    | zero => rw [markAvail_zero]; exact hmem
    | succ lim =>
      by_cases h : officeAvailPred oid t
      · rw [markAvail_cons_succ_pos d p lim rest h]
        rcases List.mem_cons.mp hmem with rfl | hmem2
        · exact absurd (by simpa [availablePred] using availablePred_of_officeAvailPred h) hstat
        · exact List.mem_cons_of_mem _ (ih hmem2)
      · rw [markAvail_cons_succ_neg d p lim rest (by simpa using h)]
        rcases List.mem_cons.mp hmem with rfl | hmem2
        · exact List.mem_cons_self _ _
        · exact List.mem_cons_of_mem _ (ih hmem2)

theorem mem_markAvail_elim {oid : Nat} {d p : String} {t : Seat} :
    ∀ {lim : Nat} {ss : List Seat}, t ∈ markAvail oid d p lim ss →
      t ∈ ss ∨ (t.status = "occupied" ∧ t.department = some d ∧ t.phone = some p) := by
  intro lim ss hmem
  induction ss generalizing lim with
  | nil => simp [markAvail] at hmem
  | cons s rest ih =>
    cases lim with
    | zero => rw [markAvail_zero] at hmem; exact Or.inl hmem
    | succ lim =>
      by_cases h : officeAvailPred oid s
      · rw [markAvail_cons_succ_pos d p lim rest h] at hmem
        rcases List.mem_cons.mp hmem with rfl | hmem2
        · exact Or.inr ⟨rfl, rfl, rfl⟩
        · rcases ih hmem2 with h2 | h2
          · exact Or.inl (List.mem_cons_of_mem _ h2)
          · exact Or.inr h2
      · rw [markAvail_cons_succ_neg d p lim rest (by simpa using h)] at hmem
        rcases List.mem_cons.mp hmem with rfl | hmem2
        · exact Or.inl (List.mem_cons_self _ _)
        · rcases ih hmem2 with h2 | h2
          · exact Or.inl (List.mem_cons_of_mem _ h2)
          · exact Or.inr h2

/-! ### Lemmas about the dict operations -/

theorem dictUpd_nil {α : Type} (k : String) (v : α) : dictUpd [] k v = [(k, v)] := rfl

theorem dictUpd_cons {α : Type} (k0 k : String) (v0 v : α) (rest : List (String × α)) :
    dictUpd ((k0, v0) :: rest) k v
      = if k0 == k then (k, v) :: rest else (k0, v0) :: dictUpd rest k v := rfl

theorem lookupRep_cons {α : Type} (k0 k : String) (v0 : α) (rest : List (String × α)) :
    lookupRep ((k0, v0) :: rest) k
      = if k0 == k then some v0 else lookupRep rest k := rfl

theorem dictUpd_of_notMem {α : Type} (k : String) (v : α) :
    ∀ (l : List (String × α)), (∀ kv ∈ l, kv.1 ≠ k) → dictUpd l k v = l ++ [(k, v)] := by
  intro l
  induction l with
  | nil => intro _; rfl
  | cons kv rest ih =>
    intro h
    obtain ⟨k0, v0⟩ := kv
    have hk0 : k0 ≠ k := h (k0, v0) (List.mem_cons_self _ _)
    rw [dictUpd_cons, if_neg (by simpa using hk0), List.cons_append,
      ih (fun kv hkv => h kv (List.mem_cons_of_mem _ hkv))]

theorem sumInner_append_single (l : List (String × Nat)) (k : String) (v : Nat) :
    sumInner (l ++ [(k, v)]) = sumInner l + v := by
  simp [sumInner]

theorem lookupRep_dictUpd_self {α : Type} (k : String) (v : α) :
    ∀ (l : List (String × α)), lookupRep (dictUpd l k v) k = some v := by
  intro l
  induction l with
  | nil => rw [dictUpd_nil, lookupRep_cons, if_pos (by simp)]
  | cons kv rest ih =>
    obtain ⟨k0, v0⟩ := kv
    by_cases h : k0 = k
    · rw [dictUpd_cons, if_pos (by simpa using h), lookupRep_cons, if_pos (by simp)]
    · rw [dictUpd_cons, if_neg (by simpa using h), lookupRep_cons,
        if_neg (by simpa using h), ih]

theorem lookupRep_dictUpd_ne {α : Type} (k k2 : String) (v : α) (hne : k2 ≠ k) :
    ∀ (l : List (String × α)), lookupRep (dictUpd l k v) k2 = lookupRep l k2 := by
  intro l
  induction l with
  | nil =>
    rw [dictUpd_nil, lookupRep_cons, if_neg (by simpa using Ne.symm hne)]
  | cons kv rest ih =>
    obtain ⟨k0, v0⟩ := kv
    by_cases h : k0 = k
    · have hk02 : ¬ k0 = k2 := fun hh => hne (hh.symm.trans h)
      rw [dictUpd_cons, if_pos (by simpa using h), lookupRep_cons, lookupRep_cons,
        if_neg (by simpa using Ne.symm hne), if_neg (by simpa using hk02)]
    · rw [dictUpd_cons, if_neg (by simpa using h), lookupRep_cons, lookupRep_cons]
      by_cases h2 : k0 = k2
      · rw [if_pos (by simpa using h2), if_pos (by simpa using h2)]
      · rw [if_neg (by simpa using h2), if_neg (by simpa using h2), ih]

/-! ### Relating the global available count to the per-office counts -/

theorem sum_office_indicator_notMem (x : Nat) :
    ∀ (os : List Office), x ∉ os.map Office.id →
      (os.map (fun o => if x == o.id then (1 : Nat) else 0)).sum = 0 := by
  intro os
  induction os with
  | nil => intro _; simp
  | cons o rest ih =>
    intro hx
    have h1 : x ≠ o.id := fun h => hx (by simp [h])
    have h2 : x ∉ rest.map Office.id := fun h => hx (by simp [h])
    rw [List.map_cons, List.sum_cons, if_neg (by simpa using h1), ih h2]

theorem sum_office_indicator_one (x : Nat) :
    ∀ (os : List Office), (os.map Office.id).Nodup → x ∈ os.map Office.id →
      (os.map (fun o => if x == o.id then (1 : Nat) else 0)).sum = 1 := by
  intro os
  induction os with
  | nil => intro _ hx; simp at hx
  | cons o rest ih =>
    intro hnd hx
    simp only [List.map_cons, List.nodup_cons] at hnd
    rw [List.map_cons] at hx
    rcases List.mem_cons.mp hx with h1 | h1
    · rw [List.map_cons, List.sum_cons, if_pos (by simp [h1]),
        sum_office_indicator_notMem x rest (h1 ▸ hnd.1)]
    · have hne : x ≠ o.id := by
        intro h
        exact hnd.1 (h ▸ h1)
      rw [List.map_cons, List.sum_cons, if_neg (by simpa using hne), ih hnd.2 h1]

theorem totalAvailIn_nil_seats (os : List Office) : totalAvailIn os [] = 0 := by
  simp [totalAvailIn, availInOffice]

theorem totalAvailIn_cons_seat (os : List Office) (s : Seat) (rest : List Seat) :
    totalAvailIn os (s :: rest)
      = (os.map (fun o => if officeAvailPred o.id s then 1 else 0)).sum
          + totalAvailIn os rest := by
  simp only [totalAvailIn, availInOffice_cons]
  rw [← List.sum_map_add]

theorem totalAvailIn_eq_countAvail :
    ∀ (os : List Office) (seats : List Seat), (os.map Office.id).Nodup →
      (∀ s ∈ seats, s.status = "available" → s.officeId ∈ os.map Office.id) →
      totalAvailIn os seats = countAvail seats := by
  intro os seats hnd hfk
  induction seats with
  | nil => simp [totalAvailIn_nil_seats, countAvail]
  | cons s rest ih =>
    rw [totalAvailIn_cons_seat, countAvail_cons,
      ih (fun t ht => hfk t (List.mem_cons_of_mem _ ht))]
    by_cases hav : s.status = "available"
    · have hmem := hfk s (List.mem_cons_self _ _) hav
      have : (os.map (fun o => if officeAvailPred o.id s then 1 else 0)).sum
          = (os.map (fun o => if s.officeId == o.id then (1 : Nat) else 0)).sum := by
        congr 1
        apply List.map_congr_left
        intro o _
        simp [officeAvailPred, hav]
      rw [this, sum_office_indicator_one s.officeId os hnd hmem,
        if_pos (by simp [availablePred, hav])]
    · have : (os.map (fun o => if officeAvailPred o.id s then 1 else 0)).sum
          = (os.map (fun _ => (0 : Nat))).sum := by
        congr 1
        apply List.map_congr_left
        intro o _
        simp [officeAvailPred, hav]
      rw [this, if_neg (by simp [availablePred, hav])]
      simp

theorem totalAvailIn_markAvail_notMem (o : Office) (d p : String) (lim : Nat)
    (seats : List Seat) :
    ∀ (os : List Office), o.id ∉ os.map Office.id →
      totalAvailIn os (markAvail o.id d p lim seats) = totalAvailIn os seats := by
  intro os hnotin
  unfold totalAvailIn
  congr 1
  apply List.map_congr_left
  intro o2 ho2
  have hne : o2.id ≠ o.id := by
    intro h
    exact hnotin (h ▸ List.mem_map_of_mem Office.id ho2)
  exact availInOffice_markAvail_ne o.id o2.id d p hne lim seats

/-! ### Lemmas about the per-department office loop -/

theorem allocOffices_nil (d p : String) (req a : Nat) (ss : List Seat)
    (rep : List (String × Nat)) : allocOffices d p req [] a ss rep = (rep, a, ss) := rfl

theorem allocOffices_cons (d p : String) (req : Nat) (o : Office) (os : List Office)
    (a : Nat) (ss : List Seat) (rep : List (String × Nat)) :
    allocOffices d p req (o :: os) a ss rep =
      if (fetchAvailable o.id (req - a) ss).length = 0 then
        allocOffices d p req os a ss rep
      else if req ≤ a + (fetchAvailable o.id (req - a) ss).length then
        (dictUpd rep o.name ((fetchAvailable o.id (req - a) ss).length),
          a + (fetchAvailable o.id (req - a) ss).length,
          markAvail o.id d p (req - a) ss)
      else
        allocOffices d p req os (a + (fetchAvailable o.id (req - a) ss).length)
          (markAvail o.id d p (req - a) ss)
          (dictUpd rep o.name ((fetchAvailable o.id (req - a) ss).length)) := rfl

theorem allocOffices_of_done (d p : String) (req : Nat) :
    ∀ (os : List Office) (a : Nat) (ss : List Seat) (rep : List (String × Nat)),
      req ≤ a → allocOffices d p req os a ss rep = (rep, a, ss) := by
  intro os a ss rep hdone
  induction os with
  | nil => rfl
  | cons o rest ih =>
    have hz : req - a = 0 := Nat.sub_eq_zero_of_le hdone
    have hn : (fetchAvailable o.id (req - a) ss).length = 0 := by
      rw [hz]
      simp [fetchAvailable]
    rw [allocOffices_cons, if_pos hn]
    exact ih

theorem totalAvailIn_nil_offices (ss : List Seat) : totalAvailIn [] ss = 0 := rfl

theorem totalAvailIn_cons_office (o : Office) (os : List Office) (ss : List Seat) :
    totalAvailIn (o :: os) ss = availInOffice o.id ss + totalAvailIn os ss := by
  simp [totalAvailIn]

theorem allocOffices_officeIds (d p : String) (req : Nat) :
    ∀ (os : List Office) (a : Nat) (ss : List Seat) (rep : List (String × Nat)),
      (allocOffices d p req os a ss rep).2.2.map Seat.officeId = ss.map Seat.officeId := by
  intro os
  induction os with
  | nil => intro a ss rep; rfl
  | cons o os ih =>
    intro a ss rep
    rw [allocOffices_cons]
    by_cases hn : (fetchAvailable o.id (req - a) ss).length = 0
    · rw [if_pos hn]
      exact ih a ss rep
    · rw [if_neg hn]
      by_cases hb : req ≤ a + (fetchAvailable o.id (req - a) ss).length
      · rw [if_pos hb]
        exact markAvail_officeIds o.id d p (req - a) ss
      · rw [if_neg hb]
        rw [ih, markAvail_officeIds]

theorem allocOffices_preserves_not_avail (d p : String) (req : Nat) {s : Seat}
    (hstat : s.status ≠ "available") :
    ∀ (os : List Office) (a : Nat) (ss : List Seat) (rep : List (String × Nat)),
      s ∈ ss → s ∈ (allocOffices d p req os a ss rep).2.2 := by
  intro os
  induction os with
  | nil => intro a ss rep hmem; exact hmem
  | cons o os ih =>
    intro a ss rep hmem
    rw [allocOffices_cons]
    by_cases hn : (fetchAvailable o.id (req - a) ss).length = 0
    · rw [if_pos hn]
      exact ih a ss rep hmem
    · rw [if_neg hn]
      by_cases hb : req ≤ a + (fetchAvailable o.id (req - a) ss).length
      · rw [if_pos hb]
        exact mem_markAvail_of_not_avail hmem hstat
      · rw [if_neg hb]
        exact ih _ _ _ (mem_markAvail_of_not_avail hmem hstat)

theorem allocOffices_mem_elim (d p : String) (req : Nat) {t : Seat} :
    ∀ (os : List Office) (a : Nat) (ss : List Seat) (rep : List (String × Nat)),
      t ∈ (allocOffices d p req os a ss rep).2.2 →
      t ∈ ss ∨ (t.status = "occupied" ∧ t.department = some d ∧ t.phone = some p) := by
  intro os
  induction os with
  | nil => intro a ss rep hmem; exact Or.inl hmem
  | cons o os ih =>
    intro a ss rep hmem
    rw [allocOffices_cons] at hmem
    by_cases hn : (fetchAvailable o.id (req - a) ss).length = 0
    · rw [if_pos hn] at hmem
      exact ih a ss rep hmem
    · rw [if_neg hn] at hmem
      by_cases hb : req ≤ a + (fetchAvailable o.id (req - a) ss).length
      · rw [if_pos hb] at hmem
        exact mem_markAvail_elim hmem
      · rw [if_neg hb] at hmem
        rcases ih _ _ _ hmem with h2 | h2
        · exact mem_markAvail_elim h2
        · exact Or.inr h2

/-- Main counting lemma for one department's office scan: as long as the offices
still to be scanned jointly hold at least the missing `required - allocated`
available seats (and office ids/names are unambiguous), the scan reaches exactly
`required`, each granted seat turning one available seat into an occupied one,
and the granted counts appended to the report entry sum to the missing amount. -/
theorem allocOffices_main (d p : String) (req : Nat) :
    ∀ (os : List Office) (a : Nat) (ss : List Seat) (rep : List (String × Nat)),
      a ≤ req →
      req ≤ a + totalAvailIn os ss →
      (os.map Office.id).Nodup →
      (os.map Office.name).Nodup →
      (∀ kv ∈ rep, kv.1 ∉ os.map Office.name) →
      (allocOffices d p req os a ss rep).2.1 = req ∧
      sumInner (allocOffices d p req os a ss rep).1 + a = sumInner rep + req ∧
      countAvail ss + a = countAvail (allocOffices d p req os a ss rep).2.2 + req ∧
      countOccupied (allocOffices d p req os a ss rep).2.2 + a
        = countOccupied ss + req := by
  intro os
  induction os with
  | nil =>
    intro a ss rep ha hcap _ _ _
    rw [totalAvailIn_nil_offices] at hcap
    have heq : req = a := le_antisymm (by omega) ha
    rw [allocOffices_nil]
    dsimp only
    refine ⟨heq.symm, ?_, ?_, ?_⟩ <;> omega
  | cons o os ih =>
    intro a ss rep ha hcap hids hnames hdisj
    rw [List.map_cons, List.nodup_cons] at hids hnames
    rw [totalAvailIn_cons_office] at hcap
    have hlen : (fetchAvailable o.id (req - a) ss).length
        = min (req - a) (availInOffice o.id ss) := length_fetchAvailable _ _ _
    have hminle1 : min (req - a) (availInOffice o.id ss) ≤ req - a := Nat.min_le_left _ _
    have hminle2 : min (req - a) (availInOffice o.id ss) ≤ availInOffice o.id ss :=
      Nat.min_le_right _ _
    have hmincase : min (req - a) (availInOffice o.id ss) = req - a ∨
        min (req - a) (availInOffice o.id ss) = availInOffice o.id ss := min_choice _ _
    rw [allocOffices_cons, hlen]
    by_cases hn : min (req - a) (availInOffice o.id ss) = 0
    · rw [if_pos hn]
      have hdisj2 : ∀ kv ∈ rep, kv.1 ∉ os.map Office.name := by
        intro kv hkv hmem
        exact hdisj kv hkv (by simp [hmem])
      exact ih a ss rep ha (by omega) hids.2 hnames.2 hdisj2
    · rw [if_neg hn]
      have hrepkeys : ∀ kv ∈ rep, kv.1 ≠ o.name := by
        intro kv hkv h
        exact hdisj kv hkv (by simp [h])
      have hrep2 : dictUpd rep o.name (min (req - a) (availInOffice o.id ss))
          = rep ++ [(o.name, min (req - a) (availInOffice o.id ss))] :=
        dictUpd_of_notMem _ _ rep hrepkeys
      have hsum2 : sumInner (dictUpd rep o.name (min (req - a) (availInOffice o.id ss)))
          = sumInner rep + min (req - a) (availInOffice o.id ss) := by
        rw [hrep2, sumInner_append_single]
      have hca : countAvail (markAvail o.id d p (req - a) ss)
            + min (req - a) (availInOffice o.id ss) = countAvail ss :=
        countAvail_markAvail o.id d p (req - a) ss
      have hco : countOccupied (markAvail o.id d p (req - a) ss)
          = countOccupied ss + min (req - a) (availInOffice o.id ss) :=
        countOccupied_markAvail o.id d p (req - a) ss
      by_cases hb : req ≤ a + min (req - a) (availInOffice o.id ss)
      · rw [if_pos hb]
        dsimp only
        refine ⟨by omega, ?_, ?_, ?_⟩
        · rw [hsum2]
          omega
        · omega
        · omega
      · rw [if_neg hb]
        have hnA : min (req - a) (availInOffice o.id ss) = availInOffice o.id ss := by
          omega
        have hta : totalAvailIn os (markAvail o.id d p (req - a) ss)
            = totalAvailIn os ss := totalAvailIn_markAvail_notMem o d p (req - a) ss os hids.1
        have hdisj2 : ∀ kv ∈ dictUpd rep o.name (min (req - a) (availInOffice o.id ss)),
            kv.1 ∉ os.map Office.name := by
          intro kv hkv
          rw [hrep2] at hkv
          rcases List.mem_append.mp hkv with h2 | h2
          · intro hmem
            exact hdisj kv h2 (by simp [hmem])
          · have : kv = (o.name, min (req - a) (availInOffice o.id ss)) := by
              simpa using h2
            rw [this]
            exact hnames.1
        have hih := ih (a + min (req - a) (availInOffice o.id ss))
          (markAvail o.id d p (req - a) ss)
          (dictUpd rep o.name (min (req - a) (availInOffice o.id ss)))
          (by omega) (by omega) hids.2 hnames.2 hdisj2
        refine ⟨hih.1, ?_, ?_, ?_⟩
        · have h2 := hih.2.1
          rw [hsum2] at h2
          omega
        · have h2 := hih.2.2.1
          omega
        · have h2 := hih.2.2.2
          omega

/-! ### Lemmas about the outer department loop -/

theorem allocLoop_nil (offices : List Office) (seats : List Seat)
    (rep : List (String × List (String × Nat))) :
    allocLoop offices [] seats rep = (rep, seats) := rfl

theorem allocLoop_cons (offices : List Office) (d : DeptData) (ds : List DeptData)
    (seats : List Seat) (rep : List (String × List (String × Nat))) :
    allocLoop offices (d :: ds) seats rep
      = allocLoop offices ds (allocOffices d.name d.phone d.count offices 0 seats []).2.2
          (dictUpd rep d.name (allocOffices d.name d.phone d.count offices 0 seats []).1) :=
  rfl

theorem allocLoop_officeIds (offices : List Office) :
    ∀ (ds : List DeptData) (seats : List Seat) (rep : List (String × List (String × Nat))),
      (allocLoop offices ds seats rep).2.map Seat.officeId = seats.map Seat.officeId := by
  intro ds
  induction ds with
  | nil => intro seats rep; rfl
  | cons d ds ih =>
    intro seats rep
    rw [allocLoop_cons, ih, allocOffices_officeIds]

theorem allocLoop_preserves_not_avail (offices : List Office) {s : Seat}
    (hstat : s.status ≠ "available") :
    ∀ (ds : List DeptData) (seats : List Seat) (rep : List (String × List (String × Nat))),
      s ∈ seats → s ∈ (allocLoop offices ds seats rep).2 := by
  intro ds
  induction ds with
  | nil => intro seats rep hmem; exact hmem
  | cons d ds ih =>
    intro seats rep hmem
    rw [allocLoop_cons]
    exact ih _ _ (allocOffices_preserves_not_avail d.name d.phone d.count hstat
      offices 0 seats [] hmem)

theorem allocLoop_mem_elim (offices : List Office) {t : Seat} :
    ∀ (ds : List DeptData) (seats : List Seat) (rep : List (String × List (String × Nat))),
      t ∈ (allocLoop offices ds seats rep).2 →
      t ∈ seats ∨ ∃ d ∈ ds, t.status = "occupied" ∧ t.department = some d.name
        ∧ t.phone = some d.phone := by
  intro ds
  induction ds with
  | nil => intro seats rep hmem; exact Or.inl hmem
  | cons d ds ih =>
    intro seats rep hmem
    rw [allocLoop_cons] at hmem
    rcases ih _ _ hmem with h2 | ⟨d2, hd2, h3⟩
    · rcases allocOffices_mem_elim d.name d.phone d.count offices 0 seats [] h2 with h3 | h3
      · exact Or.inl h3
      · exact Or.inr ⟨d, List.mem_cons_self _ _, h3⟩
    · exact Or.inr ⟨d2, List.mem_cons_of_mem _ hd2, h3⟩

theorem allocLoop_lookup_frozen (offices : List Office) {k : String} :
    ∀ (ds : List DeptData) (seats : List Seat) (rep : List (String × List (String × Nat))),
      k ∉ ds.map DeptData.name →
      lookupRep (allocLoop offices ds seats rep).1 k = lookupRep rep k := by
  intro ds
  induction ds with
  | nil => intro seats rep _; rfl
  | cons d ds ih =>
    intro seats rep hk
    have h1 : k ≠ d.name := fun h => hk (by simp [h])
    have h2 : k ∉ ds.map DeptData.name := fun h => hk (by simp [h])
    rw [allocLoop_cons, ih _ _ h2, lookupRep_dictUpd_ne _ _ _ h1]

/-- Main lemma for the whole batch: when the offices cover every available seat,
office ids and names are unambiguous, department names are pairwise distinct and
the batch's total demand fits in the available pool, every department's report
entry sums to exactly its requested count, and the available/occupied totals
move by exactly the total demand. -/
theorem allocLoop_main (offices : List Office)
    (hids : (offices.map Office.id).Nodup) (hnames : (offices.map Office.name).Nodup) :
    ∀ (ds : List DeptData) (seats : List Seat) (rep : List (String × List (String × Nat))),
      (∀ s ∈ seats, s.status = "available" → s.officeId ∈ offices.map Office.id) →
      sumCounts ds ≤ countAvail seats →
      (ds.map DeptData.name).Nodup →
      countAvail seats = countAvail (allocLoop offices ds seats rep).2 + sumCounts ds ∧
      countOccupied (allocLoop offices ds seats rep).2
        = countOccupied seats + sumCounts ds ∧
      ∀ d ∈ ds, ∃ inner, lookupRep (allocLoop offices ds seats rep).1 d.name = some inner
        ∧ sumInner inner = d.count := by
  intro ds
  induction ds with
  | nil =>
    intro seats rep _ _ _
    rw [allocLoop_nil]
    refine ⟨by simp [sumCounts], by simp [sumCounts], by simp⟩
  | cons d ds ih =>
    intro seats rep hfk hcap hdn
    have hsumcons : sumCounts (d :: ds) = d.count + sumCounts ds := by
      simp [sumCounts]
    rw [List.map_cons, List.nodup_cons] at hdn
    have hta : totalAvailIn offices seats = countAvail seats :=
      totalAvailIn_eq_countAvail offices seats hids hfk
    have hmain := allocOffices_main d.name d.phone d.count offices 0 seats []
      (Nat.zero_le _) (by omega) hids hnames (by simp)
    have hfk2 : ∀ s ∈ (allocOffices d.name d.phone d.count offices 0 seats []).2.2,
        s.status = "available" → s.officeId ∈ offices.map Office.id := by
      intro s hs hav
      rcases allocOffices_mem_elim d.name d.phone d.count offices 0 seats [] hs with h2 | h3
      · exact hfk s h2 hav
      · rw [hav] at h3
        exact absurd h3.1 (by simp)
    have hcap2 : sumCounts ds
        ≤ countAvail (allocOffices d.name d.phone d.count offices 0 seats []).2.2 := by
      have h2 := hmain.2.2.1
      omega
    have hih := ih (allocOffices d.name d.phone d.count offices 0 seats []).2.2
      (dictUpd rep d.name (allocOffices d.name d.phone d.count offices 0 seats []).1)
      hfk2 hcap2 hdn.2
    rw [allocLoop_cons]
    refine ⟨?_, ?_, ?_⟩
    · have h2 := hih.1
      have h3 := hmain.2.2.1
      omega
    · have h2 := hih.2.1
      have h3 := hmain.2.2.2
      omega
    · intro d2 hd2
      rcases List.mem_cons.mp hd2 with rfl | hmem
      · refine ⟨(allocOffices d2.name d2.phone d2.count offices 0 seats []).1, ?_, ?_⟩
        · rw [allocLoop_lookup_frozen offices ds _ _ (by
            intro hmem2
            exact hdn.1 hmem2)]
          exact lookupRep_dictUpd_self _ _ _
        · have h2 := hmain.2.1
          have h3 : sumInner ([] : List (String × Nat)) = 0 := rfl
          omega
      · exact hih.2.2 d2 hmem

/-! ### Lemmas about the office ordering -/

theorem orderById_perm (l : List Office) : List.Perm (orderById l) l :=
  List.perm_insertionSort _ l

theorem orderById_sorted (l : List Office) :
    List.Pairwise (fun o1 o2 => o1.id ≤ o2.id) (orderById l) := by
  haveI h1 : IsTotal Office (fun o1 o2 => o1.id ≤ o2.id) := ⟨fun o1 o2 => Nat.le_total _ _⟩
  haveI h2 : IsTrans Office (fun o1 o2 => o1.id ≤ o2.id) :=
    ⟨fun _ _ _ ha hb => Nat.le_trans ha hb⟩
  exact List.sorted_insertionSort _ l

/-! ### Unfolding the three paths of the POST handler -/

theorem allocate_eq_noValid (offices : List Office) (seats : List Seat) (d c p : List String)
    (h : deptData (zip3 d c p) = []) :
    allocate offices seats d c p = ⟨.error .noValidData, seats⟩ := by
  unfold allocate
  rw [if_pos (by simp [h])]

theorem allocate_eq_insufficient (offices : List Office) (seats : List Seat)
    (d c p : List String) (h1 : deptData (zip3 d c p) ≠ [])
    (h2 : countAvail seats < sumCounts (deptData (zip3 d c p))) :
    allocate offices seats d c p
      = ⟨.error (.insufficient (sumCounts (deptData (zip3 d c p))) (countAvail seats)),
          seats⟩ := by
  unfold allocate
  rw [if_neg (by simp [h1]), if_pos h2]

theorem allocate_eq_ok (offices : List Office) (seats : List Seat) (d c p : List String)
    (h1 : deptData (zip3 d c p) ≠ [])
    (h2 : ¬ countAvail seats < sumCounts (deptData (zip3 d c p))) :
    allocate offices seats d c p
      = ⟨.ok ⟨(allocLoop (orderById offices) (deptData (zip3 d c p)) seats []).1,
          sumCounts (deptData (zip3 d c p)),
          (sumCounts (deptData (zip3 d c p)) : ℚ) * WATER_LITERS_PER_SEAT,
          (sumCounts (deptData (zip3 d c p)) : ℚ) * POWER_KWH_PER_SEAT,
          (sumCounts (deptData (zip3 d c p)) : ℚ) * WATER_RATE,
          (sumCounts (deptData (zip3 d c p)) : ℚ) * POWER_RATE⟩,
        (allocLoop (orderById offices) (deptData (zip3 d c p)) seats []).2⟩ := by
  unfold allocate
  rw [if_neg (by simp [h1]), if_neg h2]

/-- On every successful POST, the four utility figures are the linear functions
of `total_allocated` computed at `src/app.py` lines 174-177. -/
theorem allocate_ok_fields (offices : List Office) (seats : List Seat) (d c p : List String)
    (r : AllocSuccess) (h : (allocate offices seats d c p).result = .ok r) :
    r.totalAllocated = sumCounts (deptData (zip3 d c p)) ∧
    r.waterUsage = (r.totalAllocated : ℚ) * WATER_LITERS_PER_SEAT ∧
    r.powerUsage = (r.totalAllocated : ℚ) * POWER_KWH_PER_SEAT ∧
    r.waterBill = (r.totalAllocated : ℚ) * WATER_RATE ∧
    r.powerBill = (r.totalAllocated : ℚ) * POWER_RATE := by
  by_cases h1 : deptData (zip3 d c p) = []
  · rw [allocate_eq_noValid offices seats d c p h1] at h
    exact Except.noConfusion h
  · by_cases h2 : countAvail seats < sumCounts (deptData (zip3 d c p))
    · rw [allocate_eq_insufficient offices seats d c p h1 h2] at h
      exact Except.noConfusion h
    · rw [allocate_eq_ok offices seats d c p h1 h2] at h
      rw [Except.ok.injEq] at h
      subst h
      exact ⟨rfl, rfl, rfl, rfl, rfl⟩

/-! ### The office scan refines its specification -/

theorem allocOfficesSpec_cons (d p : String) (req : Nat) (o : Office) (os : List Office)
    (a : Nat) (ss : List Seat) (rep : List (String × Nat)) :
    allocOfficesSpec d p req (o :: os) a ss rep =
      if req ≤ a then (rep, a, ss)
      else if (fetchAvailable o.id (req - a) ss).length = 0 then
        allocOfficesSpec d p req os a ss rep
      else
        allocOfficesSpec d p req os (a + (fetchAvailable o.id (req - a) ss).length)
          (markAvail o.id d p (req - a) ss)
          (dictUpd rep o.name ((fetchAvailable o.id (req - a) ss).length)) := rfl

theorem allocOfficesSpec_of_done (d p : String) (req : Nat) (os : List Office) (a : Nat)
    (ss : List Seat) (rep : List (String × Nat)) (hdone : req ≤ a) :
    allocOfficesSpec d p req os a ss rep = (rep, a, ss) := by
  cases os with
  | nil => rfl
  | cons o rest => rw [allocOfficesSpec_cons, if_pos hdone]

theorem allocOffices_eq_spec (d p : String) (req : Nat) :
    ∀ (os : List Office) (a : Nat) (ss : List Seat) (rep : List (String × Nat)),
      allocOffices d p req os a ss rep = allocOfficesSpec d p req os a ss rep := by
  intro os
  induction os with
  | nil => intro a ss rep; rfl
  | cons o os ih =>
    intro a ss rep
    rw [allocOffices_cons, allocOfficesSpec_cons]
    by_cases hdone : req ≤ a
    · have hz : req - a = 0 := Nat.sub_eq_zero_of_le hdone
      have hn : (fetchAvailable o.id (req - a) ss).length = 0 := by
        rw [hz]
        simp [fetchAvailable]
      rw [if_pos hdone, if_pos hn, allocOffices_of_done d p req os a ss rep hdone]
    · rw [if_neg hdone]
      by_cases hn : (fetchAvailable o.id (req - a) ss).length = 0
      · rw [if_pos hn, if_pos hn, ih]
      · rw [if_neg hn, if_neg hn]
        by_cases hb : req ≤ a + (fetchAvailable o.id (req - a) ss).length
        · rw [if_pos hb, allocOfficesSpec_of_done d p req os _ _ _ hb]
        · rw [if_neg hb, ih]

/-! ### Accessors of a successful outcome -/

theorem reportOf_ok {o : AllocOutcome} {r : AllocSuccess} (h : o.result = .ok r) :
    reportOf o = r.report := by
  unfold reportOf
  rw [h]

theorem totalAllocatedOf_ok {o : AllocOutcome} {r : AllocSuccess} (h : o.result = .ok r) :
    totalAllocatedOf o = r.totalAllocated := by
  unfold totalAllocatedOf
  rw [h]

theorem waterBillOf_ok {o : AllocOutcome} {r : AllocSuccess} (h : o.result = .ok r) :
    waterBillOf o = r.waterBill := by
  unfold waterBillOf
  rw [h]

theorem powerBillOf_ok {o : AllocOutcome} {r : AllocSuccess} (h : o.result = .ok r) :
    powerBillOf o = r.powerBill := by
  unfold powerBillOf
  rw [h]

/-! ### Claims -/

/-- Claim C1, as amended: for every batch with at least one valid request row,
if at least `sum(counts)` seats are available, then — provided the offices carry
pairwise-distinct ids and pairwise-distinct names and each seat's `office_id`
references an existing office, and the valid rows' department names are pairwise
distinct — the allocate operation succeeds, each department's per-office counts
in the report sum to exactly its requested count, and the number of occupied
seats (resp. available seats) grows (resp. shrinks) by exactly the total
requested count. -/
theorem claim_C1_theorem (offices : List Office) (seats : List Seat)
    (departments counts phones : List String)
    (hids : (offices.map Office.id).Nodup)
    (hnames : (offices.map Office.name).Nodup)
    (hfk : ∀ s ∈ seats, s.officeId ∈ offices.map Office.id)
    (hne : deptData (zip3 departments counts phones) ≠ [])
    (hdn : ((deptData (zip3 departments counts phones)).map DeptData.name).Nodup)
    (hcap : sumCounts (deptData (zip3 departments counts phones)) ≤ countAvail seats) :
    (∃ r, (allocate offices seats departments counts phones).result = .ok r) ∧
    (∀ d ∈ deptData (zip3 departments counts phones),
      ∃ inner,
        lookupRep (reportOf (allocate offices seats departments counts phones)) d.name
          = some inner ∧ sumInner inner = d.count) ∧
    countOccupied (allocate offices seats departments counts phones).seats
      = countOccupied seats + sumCounts (deptData (zip3 departments counts phones)) ∧
    countAvail seats
      = countAvail (allocate offices seats departments counts phones).seats
        + sumCounts (deptData (zip3 departments counts phones)) := by
  have h2 : ¬ countAvail seats < sumCounts (deptData (zip3 departments counts phones)) := by
    omega
  have heq := allocate_eq_ok offices seats departments counts phones hne h2
  have hpermids : List.Perm ((orderById offices).map Office.id) (offices.map Office.id) :=
    (orderById_perm offices).map _
  have hpermnames : List.Perm ((orderById offices).map Office.name)
      (offices.map Office.name) := (orderById_perm offices).map _
  have hids2 : ((orderById offices).map Office.id).Nodup := hpermids.nodup_iff.mpr hids
  have hnames2 : ((orderById offices).map Office.name).Nodup :=
    hpermnames.nodup_iff.mpr hnames
  have hfk2 : ∀ s ∈ seats, s.status = "available" →
      s.officeId ∈ (orderById offices).map Office.id := by
    intro s hs _
    exact hpermids.mem_iff.mpr (hfk s hs)
  have hmain := allocLoop_main (orderById offices) hids2 hnames2
    (deptData (zip3 departments counts phones)) seats [] hfk2 hcap hdn
  rw [heq]
  refine ⟨⟨_, rfl⟩, ?_, ?_, ?_⟩
  · intro d hd
    rcases hmain.2.2 d hd with ⟨inner, hl, hs⟩
    exact ⟨inner, by simpa [reportOf] using hl, hs⟩
  · simpa using hmain.2.1
  · simpa using hmain.1

/-- Claim C1, counterexample to the claim as stated: two offices share the name
"A"; with 2 available seats and a single request for 2 seats the pre-check
passes and the allocation succeeds, but the report records the per-office counts
under the office *name*, so the second office's entry overwrites the first and
the recorded counts for "Eng" sum to 1, not to the requested 2. -/
theorem claim_C1_counterexample :
    countAvail wSeatsDup = 2 ∧
    deptData (zip3 ["Eng"] ["2"] ["1"]) = [⟨"Eng", 2, "1"⟩] ∧
    (∃ r, (allocate wOfficesDup wSeatsDup ["Eng"] ["2"] ["1"]).result = .ok r) ∧
    lookupRep (reportOf (allocate wOfficesDup wSeatsDup ["Eng"] ["2"] ["1"])) "Eng"
      = some [("A", 1)] ∧
    sumInner [("A", 1)] = 1 :=
  ⟨by decide, by decide, ⟨_, rfl⟩, by decide, by decide⟩

/-- Claim C1, witness: a concrete batch satisfying every hypothesis of the
amended theorem. -/
theorem claim_C1_witness :
    (∃ r, (allocate wOffice1 wSeat1 ["Eng"] ["1"] ["1"]).result = .ok r) ∧
    (∀ d ∈ deptData (zip3 ["Eng"] ["1"] ["1"]),
      ∃ inner,
        lookupRep (reportOf (allocate wOffice1 wSeat1 ["Eng"] ["1"] ["1"])) d.name
          = some inner ∧ sumInner inner = d.count) ∧
    countOccupied (allocate wOffice1 wSeat1 ["Eng"] ["1"] ["1"]).seats
      = countOccupied wSeat1 + sumCounts (deptData (zip3 ["Eng"] ["1"] ["1"])) ∧
    countAvail wSeat1
      = countAvail (allocate wOffice1 wSeat1 ["Eng"] ["1"] ["1"]).seats
        + sumCounts (deptData (zip3 ["Eng"] ["1"] ["1"])) :=
  claim_C1_theorem wOffice1 wSeat1 ["Eng"] ["1"] ["1"] (by decide) (by decide) (by decide)
    (by decide) (by decide) (by decide)

/-- Claim C2: when the batch's total demand exceeds the number of available
seats, the POST fails with the "insufficient" error carrying exactly the
requested and available totals, and the seat table is returned unchanged — no
seat's status, department or phone is touched. -/
theorem claim_C2_theorem (offices : List Office) (seats : List Seat) (d c p : List String)
    (hcap : countAvail seats < sumCounts (deptData (zip3 d c p))) :
    (allocate offices seats d c p).result
      = .error (.insufficient (sumCounts (deptData (zip3 d c p))) (countAvail seats)) ∧
    (allocate offices seats d c p).seats = seats := by
  have hne : deptData (zip3 d c p) ≠ [] := by
    intro h
    rw [h] at hcap
    simp [sumCounts] at hcap
  rw [allocate_eq_insufficient offices seats d c p hne hcap]
  exact ⟨rfl, rfl⟩

/-- Claim C2, witness: 1 available seat, demand 2. -/
theorem claim_C2_witness :
    (allocate wOffice1 wSeat1 ["Eng"] ["2"] ["1"]).result
      = .error (.insufficient (sumCounts (deptData (zip3 ["Eng"] ["2"] ["1"])))
          (countAvail wSeat1)) ∧
    (allocate wOffice1 wSeat1 ["Eng"] ["2"] ["1"]).seats = wSeat1 :=
  claim_C2_theorem wOffice1 wSeat1 ["Eng"] ["2"] ["1"] (by decide)

/-- Claim C3: the allocator's office scan is the greedy procedure the spec
describes — offices are taken in ascending-id order (`orderById` sorts the
office table by id and is a permutation of it), each fetch is capped at
`required - allocated` (its length is `min` of the cap and the office's
available count), and the per-department loop is extensionally equal to the
specification-shaped loop `allocOfficesSpec`, which stops as soon as
`allocated ≥ required`, skips offices granting zero seats, marks the fetched
seats occupied with the department's name and phone, and records each granted
count under `report[department][office]`. The per-office commit is the
threading of the seat state from one office to the next. -/
theorem claim_C3_theorem (offices : List Office) (d p : String) (req : Nat)
    (os : List Office) (a oid lim : Nat) (ss : List Seat) (rep : List (String × Nat)) :
    List.Pairwise (fun o1 o2 => o1.id ≤ o2.id) (orderById offices) ∧
    List.Perm (orderById offices) offices ∧
    (fetchAvailable oid lim ss).length = min lim (availInOffice oid ss) ∧
    allocOffices d p req os a ss rep = allocOfficesSpec d p req os a ss rep :=
  ⟨orderById_sorted offices, orderById_perm offices, length_fetchAvailable oid lim ss,
    allocOffices_eq_spec d p req os a ss rep⟩

/-- Claim C4, counterexample to the claim as stated: the row ("Eng", "0", "1")
has count ≤ 0, so the claim calls it malformed and excluded, but `"0".isdigit()`
holds and the code keeps the row: it lands in `dept_data` with count 0 and the
department appears in the allocation report (with an empty office map). -/
theorem claim_C4_counterexample :
    malformedRowClaim ⟨"Eng", "0", "1"⟩ = true ∧
    validRow ⟨"Eng", "0", "1"⟩ = true ∧
    deptData [⟨"Eng", "0", "1"⟩] = [⟨"Eng", 0, "1"⟩] ∧
    (reportOf (allocate wOffice1 wSeat1 ["Eng", "HR"] ["0", "1"] ["1", "1"])).map Prod.fst
      = ["Eng", "HR"] := by
  refine ⟨by decide, by decide, by decide, by decide⟩

/-- Claim C4, as amended: a submitted row is kept (and thus counted in the
totals and the report) exactly when the department string is non-empty, the
count is a non-empty all-digit string, and the phone string is non-empty;
equivalently, a row is dropped exactly when it is malformed in the amended
sense (empty department, non-digit count — which covers negative and
non-numeric values — or empty phone). A count of "0" is kept. Malformed rows
are dropped by the comprehension itself, without raising an error. -/
theorem claim_C4_theorem (rows : List RawRow) :
    deptData rows = (rows.filter (fun r => !(malformedRowAmended r))).map mkDeptData ∧
    sumCounts (deptData rows)
      = sumCounts ((rows.filter (fun r => !(malformedRowAmended r))).map mkDeptData) := by
  have hpt : ∀ r ∈ rows, validRow r = !(malformedRowAmended r) := by
    intro r _
    cases h1 : (r.department == "") <;> cases h2 : pyIsDigit r.count <;>
      cases h3 : (r.phone == "") <;>
        simp [validRow, malformedRowAmended, h1, h2, h3]
  have hft : rows.filter validRow = rows.filter (fun r => !(malformedRowAmended r)) :=
    List.filter_congr hpt
  constructor
  · rw [deptData, hft]
  · rw [deptData, hft]

/-- Claim C5, counterexample to the claim as stated: the department string " "
is non-empty, so the row passes validation, but the stored name is stripped
*after* the check, so the claimed seat ends up occupied with the empty
department string. -/
theorem claim_C5_counterexample :
    validRow ⟨" ", "1", "1"⟩ = true ∧
    (allocate wOffice1 wSeat1 [" "] ["1"] ["1"]).seats
      = [⟨1, 1, "A1", "occupied", some "", some "1"⟩] := by
  refine ⟨by decide, by decide⟩

/-- Claim C5, as amended: every seat state reachable by one allocate call
consists of the untouched original seats plus seats newly marked occupied, and
each newly marked seat carries some stored department name; that name is
non-empty provided every valid row's department name remains non-empty after
stripping (i.e. contains a non-whitespace character) — the code checks
emptiness before stripping, so this extra proviso is needed. -/
theorem claim_C5_theorem (offices : List Office) (seats : List Seat) (d c p : List String)
    (h : ∀ r ∈ zip3 d c p, validRow r = true → pyStrip r.department ≠ "") :
    ∀ t ∈ (allocate offices seats d c p).seats,
      t ∈ seats ∨ (t.status = "occupied" ∧ ∃ nm, t.department = some nm ∧ nm ≠ "") := by
  intro t ht
  by_cases h1 : deptData (zip3 d c p) = []
  · rw [allocate_eq_noValid offices seats d c p h1] at ht
    exact Or.inl ht
  · by_cases h2 : countAvail seats < sumCounts (deptData (zip3 d c p))
    · rw [allocate_eq_insufficient offices seats d c p h1 h2] at ht
      exact Or.inl ht
    · rw [allocate_eq_ok offices seats d c p h1 h2] at ht
      replace ht : t ∈ (allocLoop (orderById offices) (deptData (zip3 d c p)) seats []).2 :=
        ht
      rcases allocLoop_mem_elim (orderById offices) _ _ _ ht with h3 | ⟨dd, hdd, hst, hdep, _⟩
      · exact Or.inl h3
      · refine Or.inr ⟨hst, dd.name, hdep, ?_⟩
        rw [deptData] at hdd
        rcases List.mem_map.mp hdd with ⟨r, hr, hrq⟩
        obtain ⟨hrmem, hrvalid⟩ := List.mem_filter.mp hr
        have hval := h r hrmem hrvalid
        rw [← hrq]
        simpa [mkDeptData] using hval

/-- Claim C5, witness: a run whose valid rows all have substantial department
names, evaluated at the seat the run marks occupied. -/
theorem claim_C5_witness :
    (⟨1, 1, "A1", "occupied", some "Eng", some "1"⟩ : Seat) ∈ wSeat1 ∨
    ((⟨1, 1, "A1", "occupied", some "Eng", some "1"⟩ : Seat).status = "occupied" ∧
      ∃ nm, (⟨1, 1, "A1", "occupied", some "Eng", some "1"⟩ : Seat).department = some nm
        ∧ nm ≠ "") :=
  claim_C5_theorem wOffice1 wSeat1 ["Eng"] ["1"] ["1"] (by decide)
    ⟨1, 1, "A1", "occupied", some "Eng", some "1"⟩ (by decide)

/-- Claim C6, counterexample to the claim as stated: allocating 10 seats, the
code computes `water_bill = total_allocated * WATER_RATE = 20.0` and
`power_bill = total_allocated * POWER_RATE = 50.0`; the claimed formulas
`seats × per-seat liters × water rate = 10 × 5 × 2.0 = 100` and
`seats × per-seat kWh × power rate = 10 × 2.5 × 5.0 = 125` do not match. -/
theorem claim_C6_counterexample :
    totalAllocatedOf (allocate wOffice1 wSeats10 ["Eng"] ["10"] ["1"]) = 10 ∧
    waterBillOf (allocate wOffice1 wSeats10 ["Eng"] ["10"] ["1"]) = 20 ∧
    powerBillOf (allocate wOffice1 wSeats10 ["Eng"] ["10"] ["1"]) = 50 ∧
    ¬ waterBillOf (allocate wOffice1 wSeats10 ["Eng"] ["10"] ["1"]) = (10 : ℚ) * 5 * 2 ∧
    ¬ powerBillOf (allocate wOffice1 wSeats10 ["Eng"] ["10"] ["1"])
        = (10 : ℚ) * (5 / 2) * 5 := by
  have hok : (allocate wOffice1 wSeats10 ["Eng"] ["10"] ["1"]).result = .ok wRecord10 := by
    rfl
  have hw := waterBillOf_ok hok
  have hp := powerBillOf_ok hok
  refine ⟨by decide, ?_, ?_, ?_, ?_⟩
  · rw [hw]
    norm_num [wRecord10, WATER_RATE]
  · rw [hp]
    norm_num [wRecord10, POWER_RATE]
  · rw [hw]
    norm_num [wRecord10, WATER_RATE]
  · rw [hp]
    norm_num [wRecord10, POWER_RATE]

/-- Claim C6, as amended: for every successful allocation, the water cost
equals seats × water rate (2.0) and the power cost equals seats × power rate
(5.0); the per-seat liters (5) and kWh (2.5) enter the usage figures, not the
bills. -/
theorem claim_C6_theorem (offices : List Office) (seats : List Seat) (d c p : List String)
    {r : AllocSuccess} (h : (allocate offices seats d c p).result = .ok r) :
    r.waterBill = (r.totalAllocated : ℚ) * WATER_RATE ∧
    r.powerBill = (r.totalAllocated : ℚ) * POWER_RATE ∧
    r.waterUsage = (r.totalAllocated : ℚ) * WATER_LITERS_PER_SEAT ∧
    r.powerUsage = (r.totalAllocated : ℚ) * POWER_KWH_PER_SEAT := by
  have hf := allocate_ok_fields offices seats d c p r h
  exact ⟨hf.2.2.2.1, hf.2.2.2.2, hf.2.1, hf.2.2.1⟩

/-- Claim C6, witness: the amended bill formulas at a concrete successful run. -/
theorem claim_C6_witness :
    wRecord1.waterBill = (wRecord1.totalAllocated : ℚ) * WATER_RATE ∧
    wRecord1.powerBill = (wRecord1.totalAllocated : ℚ) * POWER_RATE ∧
    wRecord1.waterUsage = (wRecord1.totalAllocated : ℚ) * WATER_LITERS_PER_SEAT ∧
    wRecord1.powerUsage = (wRecord1.totalAllocated : ℚ) * POWER_KWH_PER_SEAT :=
  claim_C6_theorem wOffice1 wSeat1 ["Eng"] ["1"] ["1"] (by rfl)

/-- Claim C7: on a successful allocation of 10 seats the computed utilities
are water usage 50 L, power usage 25 kWh, water bill $20.00, power bill
$50.00; in general usage = seats × per-seat amount and bill = seats × rate. -/
theorem claim_C7_theorem (offices : List Office) (seats : List Seat) (d c p : List String)
    {r : AllocSuccess} (h : (allocate offices seats d c p).result = .ok r)
    (h10 : r.totalAllocated = 10) :
    r.waterUsage = (r.totalAllocated : ℚ) * WATER_LITERS_PER_SEAT ∧
    r.powerUsage = (r.totalAllocated : ℚ) * POWER_KWH_PER_SEAT ∧
    r.waterBill = (r.totalAllocated : ℚ) * WATER_RATE ∧
    r.powerBill = (r.totalAllocated : ℚ) * POWER_RATE ∧
    r.waterUsage = 50 ∧ r.powerUsage = 25 ∧ r.waterBill = 20 ∧ r.powerBill = 50 := by
  have hf := allocate_ok_fields offices seats d c p r h
  refine ⟨hf.2.1, hf.2.2.1, hf.2.2.2.1, hf.2.2.2.2, ?_, ?_, ?_, ?_⟩
  · rw [hf.2.1, h10]
    norm_num [WATER_LITERS_PER_SEAT]
  · rw [hf.2.2.1, h10]
    norm_num [POWER_KWH_PER_SEAT]
  · rw [hf.2.2.2.1, h10]
    norm_num [WATER_RATE]
  · rw [hf.2.2.2.2, h10]
    norm_num [POWER_RATE]

/-- Claim C7, witness: the concrete 10-seat run. -/
theorem claim_C7_witness :
    wRecord10.waterUsage = (wRecord10.totalAllocated : ℚ) * WATER_LITERS_PER_SEAT ∧
    wRecord10.powerUsage = (wRecord10.totalAllocated : ℚ) * POWER_KWH_PER_SEAT ∧
    wRecord10.waterBill = (wRecord10.totalAllocated : ℚ) * WATER_RATE ∧
    wRecord10.powerBill = (wRecord10.totalAllocated : ℚ) * POWER_RATE ∧
    wRecord10.waterUsage = 50 ∧ wRecord10.powerUsage = 25 ∧
    wRecord10.waterBill = 20 ∧ wRecord10.powerBill = 50 :=
  claim_C7_theorem wOffice1 wSeats10 ["Eng"] ["10"] ["1"] (by rfl) (by rfl)

/-- Claim C8: a fetch of available seats only ever returns seats whose status
is "available"; a seat that is occupied is never returned by any fetch, is left
untouched by every office scan over the current state and by a whole allocate
call, and is still not returned by a fetch against the post-call state — the
allocator turns seats from available to occupied and never back. -/
theorem claim_C8_theorem (offices : List Office) (seats : List Seat) (d c p : List String)
    (oid lim : Nat) (s : Seat) (hmem : s ∈ seats) (hocc : s.status = "occupied") :
    (∀ t ∈ fetchAvailable oid lim seats, t.status = "available") ∧
    s ∉ fetchAvailable oid lim seats ∧
    (∀ dpt ph req os a rep, s ∈ (allocOffices dpt ph req os a seats rep).2.2) ∧
    s ∈ (allocate offices seats d c p).seats ∧
    s ∉ fetchAvailable oid lim ((allocate offices seats d c p).seats) := by
  have hne : s.status ≠ "available" := by
    rw [hocc]
    decide
  have hseats : s ∈ (allocate offices seats d c p).seats := by
    by_cases h1 : deptData (zip3 d c p) = []
    · rw [allocate_eq_noValid offices seats d c p h1]
      exact hmem
    · by_cases h2 : countAvail seats < sumCounts (deptData (zip3 d c p))
      · rw [allocate_eq_insufficient offices seats d c p h1 h2]
        exact hmem
      · rw [allocate_eq_ok offices seats d c p h1 h2]
        exact allocLoop_preserves_not_avail (orderById offices) hne _ _ _ hmem
  refine ⟨fun t ht => mem_fetchAvailable_status ht, ?_, ?_, hseats, ?_⟩
  · intro hin
    exact hne (mem_fetchAvailable_status hin)
  · intro dpt ph req os a rep
    exact allocOffices_preserves_not_avail dpt ph req hne os a seats rep hmem
  · intro hin
    exact hne (mem_fetchAvailable_status hin)

/-- Claim C8, witness: an occupied seat next to an available one. -/
theorem claim_C8_witness :
    (∀ t ∈ fetchAvailable 1 5 wSeatOcc, t.status = "available") ∧
    (⟨1, 1, "A1", "occupied", some "X", some "9"⟩ : Seat) ∉ fetchAvailable 1 5 wSeatOcc ∧
    (∀ dpt ph req os a rep,
      (⟨1, 1, "A1", "occupied", some "X", some "9"⟩ : Seat)
        ∈ (allocOffices dpt ph req os a wSeatOcc rep).2.2) ∧
    (⟨1, 1, "A1", "occupied", some "X", some "9"⟩ : Seat)
      ∈ (allocate wOffice1 wSeatOcc ["Eng"] ["1"] ["1"]).seats ∧
    (⟨1, 1, "A1", "occupied", some "X", some "9"⟩ : Seat)
      ∉ fetchAvailable 1 5 ((allocate wOffice1 wSeatOcc ["Eng"] ["1"] ["1"]).seats) :=
  claim_C8_theorem wOffice1 wSeatOcc ["Eng"] ["1"] ["1"] 1 5
    ⟨1, 1, "A1", "occupied", some "X", some "9"⟩ (by decide) (by decide)

/-- Claim C9: the allocator is a pure function of the office table, the seat
table and the submitted rows, so two runs from identical inputs produce the
identical allocation report (and identical per-office breakdowns). -/
theorem claim_C9_theorem (offices1 offices2 : List Office) (seats1 seats2 : List Seat)
    (d1 d2 c1 c2 p1 p2 : List String) (ho : offices1 = offices2) (hs : seats1 = seats2)
    (hd : d1 = d2) (hc : c1 = c2) (hp : p1 = p2) :
    reportOf (allocate offices1 seats1 d1 c1 p1)
      = reportOf (allocate offices2 seats2 d2 c2 p2) := by
  subst ho
  subst hs
  subst hd
  subst hc
  subst hp
  rfl

/-- Claim C9, witness: two identical concrete runs. -/
theorem claim_C9_witness :
    reportOf (allocate wOffice1 wSeat1 ["Eng"] ["1"] ["1"])
      = reportOf (allocate wOffice1 wSeat1 ["Eng"] ["1"] ["1"]) :=
  claim_C9_theorem wOffice1 wOffice1 wSeat1 wSeat1 ["Eng"] ["Eng"] ["1"] ["1"] ["1"] ["1"]
    rfl rfl rfl rfl rfl

/-- Claim C10: when no submitted row survives validation (in particular when
the submission is empty), the POST fails with the "No valid allocation data
submitted" client error and the seat table is returned unchanged. -/
theorem claim_C10_theorem (offices : List Office) (seats : List Seat) (d c p : List String)
    (h : deptData (zip3 d c p) = []) :
    (allocate offices seats d c p).result = .error .noValidData ∧
    (allocate offices seats d c p).seats = seats := by
  rw [allocate_eq_noValid offices seats d c p h]
  exact ⟨rfl, rfl⟩

/-- Claim C10, witness: every submitted row is malformed (empty department,
non-numeric count, empty phone respectively). -/
theorem claim_C10_witness :
    (allocate wOffice1 wSeat1 ["", "Eng", "HR"] ["1", "x", "2"] ["1", "1", ""]).result
      = .error .noValidData ∧
    (allocate wOffice1 wSeat1 ["", "Eng", "HR"] ["1", "x", "2"] ["1", "1", ""]).seats
      = wSeat1 :=
  claim_C10_theorem wOffice1 wSeat1 ["", "Eng", "HR"] ["1", "x", "2"] ["1", "1", ""]
    (by decide)

end SeatAlloc
